import Mathlib

/-!
Verification of the conversation store and controller of `vantage-webui`.

The development shallowly embeds:
* the Zustand store `src/store/useChatStore.ts` (state shape and its eight
  mutation actions) as pure functions on an explicit `ChatState`;
* the send-message controller `handleSendMessage` of `ChatContainer`
  (split at its single `await` suspension point into a start phase and a
  finish phase, with the backend outcome passed in as data);
* the input guard `handleSend` of `MessageInput` (trim / disabled check);
* the persistence `partialize` projection, together with a rehydration
  merge modelled from the specification (the persist middleware is an
  external library).

`uuidv4()` is modelled by a deterministic injective generator `mkGenId`
driven by a counter threaded through the state, and `Date.now()` by
explicit `Nat` clock arguments supplied to the operations that read it.
-/

/-- Message role: `'user' | 'agent'`. -/
inductive Role where
  | user
  | agent
deriving DecidableEq, Repr

/-- The `Message` interface of `useChatStore.ts`.  Optional TS fields are
`Option`s; `timestamp` is epoch milliseconds as a `Nat`; the opaque
`toolsUsed : unknown[]` entries are modelled as strings. -/
structure Message where
  id : String
  role : Role
  content : String
  timestamp : Nat
  toolsUsed : Option (List String) := none
  processingTime : Option Nat := none
  isStreaming : Option Bool := none
  error : Option String := none
deriving DecidableEq, Repr

/-- The `UserPreferences` interface (all fields optional in TS). -/
structure UserPreferences where
  theme : Option String := none
  enableProfiling : Option Bool := none
  userId : Option String := none
deriving DecidableEq, Repr

/-- Argument of `addMessage`: `Omit<Message,'id'|'timestamp'> & {id?: string}`. -/
structure NewMessage where
  id : Option String := none
  role : Role
  content : String
  toolsUsed : Option (List String) := none
  processingTime : Option Nat := none
  isStreaming : Option Bool := none
  error : Option String := none
deriving DecidableEq, Repr

/-- A `Partial<Message>` patch as consumed by `updateMessage`: a field
that is `some v` is present in the patch object and overwrites the
message field on spread (`{...msg, ...updates}`); `none` means absent. -/
structure MessagePatch where
  id : Option String := none
  role : Option Role := none
  content : Option String := none
  timestamp : Option Nat := none
  toolsUsed : Option (List String) := none
  processingTime : Option Nat := none
  isStreaming : Option Bool := none
  error : Option String := none
deriving DecidableEq, Repr

/-- A `Partial<UserPreferences>` patch for `updateUserPreferences`. -/
structure PrefsPatch where
  theme : Option String := none
  enableProfiling : Option Bool := none
  userId : Option String := none
deriving DecidableEq, Repr

/-- The state slice of the store (`ChatState` minus the actions), plus
`uuidCtr`, the internal supply of the `uuidv4()` model. -/
structure ChatState where
  messages : List Message
  sessionId : String
  userPreferences : UserPreferences
  isLoading : Bool
  streamingMessageId : Option String
  uuidCtr : Nat
deriving DecidableEq, Repr

/-- Model of `uuidv4()`: the `n`-th generated identifier.  Injective by
construction (the string has length `n + 1`), so distinct draws of the
generator never collide — the standard idealisation of UUID freshness. -/
def mkGenId (n : Nat) : String :=
  String.mk (List.replicate (n + 1) 'u')

theorem mkGenId_injective : Function.Injective mkGenId := by
  intro a b h
  have hdata : List.replicate (a + 1) 'u' = List.replicate (b + 1) 'u' :=
    congrArg String.data h
  have hlen := congrArg List.length hdata
  simpa using hlen

theorem mkGenId_length (n : Nat) : (mkGenId n).data.length = n + 1 := by
  simp [mkGenId]

/-- `id` is not a possible output of the uuid generator model.  Caller
supplied ids satisfying this can never collide with generated ones. -/
def GenFree (id : String) : Prop := ∀ k, id ≠ mkGenId k

theorem genFree_intro {id : String}
    (h : id.data.length = 0 ∨ id ≠ mkGenId (id.data.length - 1)) :
    GenFree id := by
  intro k hk
  subst hk
  rw [mkGenId_length] at h
  rcases h with h0 | hne
  · omega
  · exact hne (congrArg mkGenId (by omega))

/-! ## Store operations (from `useChatStore.ts`) -/

/-- `addMessage`: builds the new message (`id` from the optional argument
when provided, else a fresh generated one; `timestamp` from the clock),
appends it, and returns it alongside the new state. -/
def addMessage (st : ChatState) (now : Nat) (m : NewMessage) :
    ChatState × Message :=
  let newId := m.id.getD (mkGenId st.uuidCtr)
  let newCtr := if m.id.isSome then st.uuidCtr else st.uuidCtr + 1
  let newMessage : Message :=
    { id := newId, role := m.role, content := m.content, timestamp := now,
      toolsUsed := m.toolsUsed, processingTime := m.processingTime,
      isStreaming := m.isStreaming, error := m.error }
  ({ st with messages := st.messages ++ [newMessage], uuidCtr := newCtr },
   newMessage)

/-- The object spread `{...msg, ...updates}`: every field present in the
patch overwrites the corresponding message field. -/
def applyPatch (m : Message) (p : MessagePatch) : Message :=
  { id := p.id.getD m.id
    role := p.role.getD m.role
    content := p.content.getD m.content
    timestamp := p.timestamp.getD m.timestamp
    toolsUsed := match p.toolsUsed with
      | some v => some v
      | none => m.toolsUsed
    processingTime := match p.processingTime with
      | some v => some v
      | none => m.processingTime
    isStreaming := match p.isStreaming with
      | some v => some v
      | none => m.isStreaming
    error := match p.error with
      | some v => some v
      | none => m.error }

/-- `updateMessage`: `messages.map(msg => msg.id === id ? {...msg, ...updates} : msg)`. -/
def updateMessage (st : ChatState) (id : String) (p : MessagePatch) :
    ChatState :=
  { st with
    messages := st.messages.map fun m =>
      if m.id = id then applyPatch m p else m }

def setStreamingMessageId (st : ChatState) (id : Option String) : ChatState :=
  { st with streamingMessageId := id }

def setLoading (st : ChatState) (loading : Bool) : ChatState :=
  { st with isLoading := loading }

def setSessionId (st : ChatState) (sessionId : String) : ChatState :=
  { st with sessionId := sessionId }

/-- `updateUserPreferences`: shallow merge `{...state.userPreferences, ...preferences}`. -/
def updateUserPreferences (st : ChatState) (p : PrefsPatch) : ChatState :=
  { st with
    userPreferences :=
      { theme := match p.theme with
          | some v => some v
          | none => st.userPreferences.theme
        enableProfiling := match p.enableProfiling with
          | some v => some v
          | none => st.userPreferences.enableProfiling
        userId := match p.userId with
          | some v => some v
          | none => st.userPreferences.userId } }

def clearMessages (st : ChatState) : ChatState :=
  { st with messages := [] }

/-- `resetSession`: empty messages, fresh generated session id, flags cleared. -/
def resetSession (st : ChatState) : ChatState :=
  { st with
    messages := []
    sessionId := mkGenId st.uuidCtr
    isLoading := false
    streamingMessageId := none
    uuidCtr := st.uuidCtr + 1 }

/-- The initial store state produced by `create` (fresh session id,
default preferences). -/
def initState : ChatState :=
  { messages := []
    sessionId := mkGenId 0
    userPreferences :=
      { theme := some "system", enableProfiling := some false,
        userId := some "default_user" }
    isLoading := false
    streamingMessageId := none
    uuidCtr := 1 }

/-! ## Persistence (`partialize` from the source; rehydration modelled
from the spec) -/

/-- The persisted subset selected by `partialize`. -/
structure PersistedSnapshot where
  messages : List Message
  sessionId : String
  userPreferences : UserPreferences
deriving DecidableEq, Repr

/-- `partialize`: project the durable subset of the state. -/
def toPersistedSnapshot (st : ChatState) : PersistedSnapshot :=
  { messages := st.messages
    sessionId := st.sessionId
    userPreferences := st.userPreferences }

/-- Modelled from the spec: the persist middleware's rehydration merge is
library code not present in the repository sources; per the spec the
persisted `messages`/`sessionId`/`userPreferences` are merged over the
freshly created initial state, while `isLoading` and
`streamingMessageId` are not persisted and keep their initial values
(`false` / `none`).  `ctr` is the fresh process's generator supply. -/
def rehydrate (snap : PersistedSnapshot) (ctr : Nat) : ChatState :=
  { messages := snap.messages
    sessionId := snap.sessionId
    userPreferences := snap.userPreferences
    isLoading := false
    streamingMessageId := none
    uuidCtr := ctr }

/-! ## Backend interface and controller (`ChatContainer.handleSendMessage`,
`MessageInput.handleSend`) -/

/-- The `ChatResponse` payload of a successful `postChat` call. -/
structure ChatResponse where
  response : String
  session_id : String
  processing_time : Nat
  tools_used : List String
deriving DecidableEq, Repr

/-- Outcome of the awaited backend call: a response, or a thrown value —
`some m` for an `Error` whose `.message` is `m`, `none` for a non-`Error`
throw (which the catch block renders as `"An error occurred"`). -/
inductive SendOutcome where
  | success (resp : ChatResponse)
  | failure (thrown : Option String)
deriving DecidableEq, Repr

/-- Data captured by `handleSendMessage`'s closure across the `await`:
the placeholder's id and the `sessionId` that was sent. -/
structure PendingExchange where
  agentId : String
  sessionAtStart : String
deriving DecidableEq, Repr


/-- Store state plus the in-flight exchanges of the controller.  Each
`handleSendMessage` call that has passed its start phase and not yet
settled contributes one entry.  The program itself has no guard against
overlaps — the input is disabled only while `isLoading` is true, and the
reset button (never disabled) lowers `isLoading` mid-flight — so several
exchanges can be in flight at once. -/
structure SysState where
  chat : ChatState
  pending : List PendingExchange
deriving DecidableEq, Repr

/-- First phase of `handleSendMessage`, up to the `await`: append the
user message, append the streaming agent placeholder, record the
placeholder id, raise the loading flag, and capture the request's
session id.  `nowU`/`nowA` are the two `Date.now()` reads. -/
def handleSendStart (s : SysState) (content : String) (nowU nowA : Nat) :
    SysState :=
  let r1 := addMessage s.chat nowU { role := .user, content := content }
  let r2 := addMessage r1.1 nowA
    { role := .agent, content := "", isStreaming := some true }
  let st3 := setStreamingMessageId r2.1 (some r2.2.id)
  let st4 := setLoading st3 true
  { chat := st4,
    pending := s.pending ++
      [{ agentId := r2.2.id, sessionAtStart := s.chat.sessionId }] }

/-- The success-branch patch applied to the placeholder.  The source
computes `processing_time || (endTime - startTime)`: the locally measured
`elapsed` is used whenever the reported `processing_time` is falsy (0). -/
def successPatch (resp : ChatResponse) (elapsed : Nat) : MessagePatch :=
  { content := some resp.response
    isStreaming := some false
    toolsUsed := some resp.tools_used
    processingTime :=
      some (if resp.processing_time = 0 then elapsed else resp.processing_time) }

/-- The catch-branch patch: `isStreaming: false` and the human-readable
error text (`error.message` for an `Error`, else `'An error occurred'`). -/
def failurePatch (thrown : Option String) : MessagePatch :=
  { isStreaming := some false
    error := some (thrown.getD "An error occurred") }

/-- Second phase of `handleSendMessage` for the exchange whose closure
captured `p`, from the settled `await` on: patch the placeholder
(success or catch branch), adopt a changed backend session id, then the
`finally` block clears the streaming id and the loading flag.  The
settled exchange is removed from the in-flight set. -/
def handleSendFinish (s : SysState) (p : PendingExchange)
    (outcome : SendOutcome) (elapsed : Nat) : SysState :=
  let st1 :=
    match outcome with
    | .success resp =>
      let patched := updateMessage s.chat p.agentId (successPatch resp elapsed)
      if resp.session_id ≠ p.sessionAtStart then
        setSessionId patched resp.session_id
      else
        patched
    | .failure thrown =>
      updateMessage s.chat p.agentId (failurePatch thrown)
  { chat := setLoading (setStreamingMessageId st1 none) false,
    pending := s.pending.erase p }

/-- Model of JavaScript `String.prototype.trim`: drop leading and
trailing whitespace characters. -/
def jsTrim (s : String) : String :=
  String.mk
    (((s.data.dropWhile Char.isWhitespace).reverse.dropWhile
        Char.isWhitespace).reverse)

/-- `MessageInput.handleSend`: forwards the trimmed text to
`onSendMessage` only when it is non-empty and the input is not disabled;
otherwise nothing happens. -/
def handleSend (message : String) (disabled : Bool) : Option String :=
  if jsTrim message ≠ "" ∧ disabled = false then some (jsTrim message)
  else none

/-- The full send path from the input component: returns the new system
state and whether an outbound request was started. -/
def sendPath (message : String) (disabled : Bool) (s : SysState)
    (nowU nowA : Nat) : SysState × Bool :=
  match handleSend message disabled with
  | none => (s, false)
  | some content => (handleSendStart s content nowU nowA, true)

/-- The initial greeting effect of `ChatContainer` (adds a welcome agent
message when the list is empty). -/
def greetStep (s : SysState) (now : Nat) : SysState :=
  if s.chat.messages = [] then
    { s with
      chat := (addMessage s.chat now
        { role := .agent,
          content := "Hello! I'm the Vantage AI assistant. How can I help you today?" }).1 }
  else s

/-- Initial system state: fresh store, no exchange in flight. -/
def initSys : SysState := { chat := initState, pending := [] }

/-! ## The system transition relation

Steps are the store mutations as the UI actually drives them: the two
phases of a send-message exchange, the reset button, the mount greeting,
and preference updates.  `sendStart` carries exactly the guard the
presentation layer enforces (`disabled={isLoading}`): a send can begin
whenever `isLoading` is false.  Since the reset button is never
disabled and `resetSession` lowers `isLoading`, this permits overlapping
exchanges.  `sendFinish` settles any in-flight exchange. -/

inductive SysStep : SysState → SysState → Prop where
  | sendStart (s : SysState) (content : String) (nowU nowA : Nat)
      (hL : s.chat.isLoading = false) :
      SysStep s (handleSendStart s content nowU nowA)
  | sendFinish (s : SysState) (p : PendingExchange) (outcome : SendOutcome)
      (elapsed : Nat) (hp : p ∈ s.pending) :
      SysStep s (handleSendFinish s p outcome elapsed)
  | reset (s : SysState) :
      SysStep s { s with chat := resetSession s.chat }
  | greet (s : SysState) (now : Nat) :
      SysStep s (greetStep s now)
  | updatePrefs (s : SysState) (p : PrefsPatch) :
      SysStep s { s with chat := updateUserPreferences s.chat p }

/-- States reachable from the initial state under the program's own
guard (`isLoading = false` at every send start). -/
def Reachable (s : SysState) : Prop :=
  Relation.ReflTransGen SysStep initSys s

/-- The strengthened caller contract: a send begins only when no
exchange is in flight at all (`pending = []`), not merely when
`isLoading` is false.  The two guards coincide except when
`resetSession` is invoked mid-flight, which lowers `isLoading` while an
exchange is still awaiting its response. -/
inductive ContractStep : SysState → SysState → Prop where
  | sendStart (s : SysState) (content : String) (nowU nowA : Nat)
      (hL : s.chat.isLoading = false) (hnone : s.pending = []) :
      ContractStep s (handleSendStart s content nowU nowA)
  | sendFinish (s : SysState) (p : PendingExchange) (outcome : SendOutcome)
      (elapsed : Nat) (hp : p ∈ s.pending) :
      ContractStep s (handleSendFinish s p outcome elapsed)
  | reset (s : SysState) :
      ContractStep s { s with chat := resetSession s.chat }
  | greet (s : SysState) (now : Nat) :
      ContractStep s (greetStep s now)
  | updatePrefs (s : SysState) (p : PrefsPatch) :
      ContractStep s { s with chat := updateUserPreferences s.chat p }

/-- States reachable under the strengthened (no-overlap) contract. -/
def ContractReachable (s : SysState) : Prop :=
  Relation.ReflTransGen ContractStep initSys s

theorem contractStep_sysStep {s s' : SysState} (h : ContractStep s s') :
    SysStep s s' := by
  cases h with
  | sendStart content nowU nowA hL hnone =>
    exact SysStep.sendStart s content nowU nowA hL
  | sendFinish p outcome elapsed hp =>
    exact SysStep.sendFinish s p outcome elapsed hp
  | reset => exact SysStep.reset s
  | greet now => exact SysStep.greet s now
  | updatePrefs p => exact SysStep.updatePrefs s p

theorem contractReachable_reachable {s : SysState}
    (h : ContractReachable s) : Reachable s :=
  Relation.ReflTransGen.mono (fun _ _ hs => contractStep_sysStep hs) h

/-! ## Helper lemmas about the step functions -/

/-- Number of messages currently marked streaming. -/
def streamCount (l : List Message) : Nat :=
  (l.filter fun m => m.isStreaming = some true).length

theorem gen_ne_of_lt {x : String} {c j : Nat}
    (h : ∃ k, k < c ∧ x = mkGenId k) (hj : c ≤ j) : x ≠ mkGenId j := by
  obtain ⟨k, hk, rfl⟩ := h
  intro he
  have := mkGenId_injective he
  omega

theorem id_ne_of_lt {l : List Message} {c j : Nat}
    (hl : ∀ m ∈ l, ∃ k, k < c ∧ m.id = mkGenId k) (hj : c ≤ j) :
    ∀ m ∈ l, m.id ≠ mkGenId j :=
  fun m hm => gen_ne_of_lt (hl m hm) hj

theorem applyPatch_id {m : Message} {p : MessagePatch} (h : p.id = none) :
    (applyPatch m p).id = m.id := by
  simp [applyPatch, h]

theorem applyPatch_isStreaming {m : Message} {p : MessagePatch}
    (h : p.isStreaming = some false) :
    (applyPatch m p).isStreaming = some false := by
  simp [applyPatch, h]

theorem updateMessage_messages (st : ChatState) (id : String)
    (p : MessagePatch) :
    (updateMessage st id p).messages =
      st.messages.map fun m => if m.id = id then applyPatch m p else m := rfl

/-- Explicit form of the start phase. -/
theorem handleSendStart_eq (s : SysState) (content : String)
    (nowU nowA : Nat) :
    handleSendStart s content nowU nowA =
      { chat :=
          { s.chat with
            messages := s.chat.messages ++
              [{ id := mkGenId s.chat.uuidCtr, role := .user,
                 content := content, timestamp := nowU }] ++
              [{ id := mkGenId (s.chat.uuidCtr + 1), role := .agent,
                 content := "", timestamp := nowA,
                 isStreaming := some true }]
            streamingMessageId := some (mkGenId (s.chat.uuidCtr + 1))
            isLoading := true
            uuidCtr := s.chat.uuidCtr + 2 }
        pending := s.pending ++
          [{ agentId := mkGenId (s.chat.uuidCtr + 1),
             sessionAtStart := s.chat.sessionId }] } := rfl

/-- The placeholder patch selected by the settled outcome. -/
def finishPatch (outcome : SendOutcome) (elapsed : Nat) : MessagePatch :=
  match outcome with
  | .success resp => successPatch resp elapsed
  | .failure thrown => failurePatch thrown

theorem finishPatch_id (outcome : SendOutcome) (elapsed : Nat) :
    (finishPatch outcome elapsed).id = none := by
  cases outcome <;> rfl

theorem finishPatch_isStreaming (outcome : SendOutcome) (elapsed : Nat) :
    (finishPatch outcome elapsed).isStreaming = some false := by
  cases outcome <;> rfl

theorem handleSendFinish_messages (s : SysState) (p : PendingExchange)
    (outcome : SendOutcome) (elapsed : Nat) :
    (handleSendFinish s p outcome elapsed).chat.messages =
      s.chat.messages.map fun m =>
        if m.id = p.agentId then applyPatch m (finishPatch outcome elapsed)
        else m := by
  cases outcome with
  | success resp =>
    simp only [handleSendFinish, finishPatch]
    split <;> rfl
  | failure thrown => rfl

theorem handleSendFinish_pending (s : SysState) (p : PendingExchange)
    (outcome : SendOutcome) (elapsed : Nat) :
    (handleSendFinish s p outcome elapsed).pending = s.pending.erase p := rfl

theorem handleSendFinish_streamingId (s : SysState) (p : PendingExchange)
    (outcome : SendOutcome) (elapsed : Nat) :
    (handleSendFinish s p outcome elapsed).chat.streamingMessageId =
      none := rfl

theorem handleSendFinish_isLoading (s : SysState) (p : PendingExchange)
    (outcome : SendOutcome) (elapsed : Nat) :
    (handleSendFinish s p outcome elapsed).chat.isLoading = false := rfl

theorem handleSendFinish_ctr (s : SysState) (p : PendingExchange)
    (outcome : SendOutcome) (elapsed : Nat) :
    (handleSendFinish s p outcome elapsed).chat.uuidCtr =
      s.chat.uuidCtr := by
  cases outcome with
  | success resp =>
    simp only [handleSendFinish]
    split <;> rfl
  | failure thrown => rfl

theorem eq_of_same_id {l : List Message} (hnd : (l.map Message.id).Nodup)
    {m m' : Message} (hm : m ∈ l) (hm' : m' ∈ l) (hid : m'.id = m.id) :
    m' = m :=
  List.inj_on_of_nodup_map hnd hm' hm hid

theorem length_le_one_of_all_eq {l : List Message} {a : String}
    (hnd : (l.map Message.id).Nodup) (hall : ∀ m ∈ l, m.id = a) :
    l.length ≤ 1 := by
  match l with
  | [] => simp
  | [m] => simp
  | m1 :: m2 :: rest =>
    exfalso
    simp only [List.map_cons, List.nodup_cons, List.mem_cons,
      List.mem_map, not_or] at hnd
    have h1 := hall m1 (by simp)
    have h2 := hall m2 (by simp)
    exact hnd.1.1 (h1.trans h2.symm)

/-! ## Invariant of the faithful system -/

/-- Invariant holding along every run of the program as the UI drives
it, overlapping exchanges included: message ids are generated and below
the counter, pairwise distinct; every in-flight placeholder id is
generated and below the counter, the in-flight ids are pairwise
distinct, and any message carrying an in-flight placeholder id is still
streaming. -/
structure FaithInv (s : SysState) : Prop where
  idsLt : ∀ m ∈ s.chat.messages, ∃ k, k < s.chat.uuidCtr ∧ m.id = mkGenId k
  idsNodup : (s.chat.messages.map Message.id).Nodup
  pendLt : ∀ p ∈ s.pending,
    ∃ k, k < s.chat.uuidCtr ∧ p.agentId = mkGenId k
  pendNodup : (s.pending.map PendingExchange.agentId).Nodup
  pendStream : ∀ p ∈ s.pending, ∀ m ∈ s.chat.messages,
    m.id = p.agentId → m.isStreaming = some true

theorem faithInv_init : FaithInv initSys := by
  constructor <;> simp [initSys, initState]

theorem faithInv_step {s s' : SysState} (inv : FaithInv s)
    (h : SysStep s s') : FaithInv s' := by
  cases h with
  | sendStart content nowU nowA hL =>
    rw [handleSendStart_eq]
    have hne01 : mkGenId s.chat.uuidCtr ≠ mkGenId (s.chat.uuidCtr + 1) := by
      intro h
      have := mkGenId_injective h
      omega
    constructor
    · intro m hm
      simp only [List.append_assoc, List.mem_append, List.mem_singleton] at hm
      rcases hm with hm | hm | hm
      · obtain ⟨k, hk, hid⟩ := inv.idsLt m hm
        exact ⟨k, show k < s.chat.uuidCtr + 2 by omega, hid⟩
      · subst hm
        exact ⟨s.chat.uuidCtr, show s.chat.uuidCtr < s.chat.uuidCtr + 2 by omega, rfl⟩
      · subst hm
        exact ⟨s.chat.uuidCtr + 1,
          show s.chat.uuidCtr + 1 < s.chat.uuidCtr + 2 by omega, rfl⟩
    · show ((s.chat.messages ++ _ ++ _).map Message.id).Nodup
      rw [List.append_assoc, List.map_append, List.nodup_append]
      refine ⟨inv.idsNodup, by simp [hne01], ?_⟩
      rw [List.disjoint_left]
      intro x hx hx2
      simp only [List.mem_map] at hx
      obtain ⟨m, hm, rfl⟩ := hx
      simp at hx2
      rcases hx2 with hx2 | hx2
      · exact id_ne_of_lt inv.idsLt (Nat.le_refl _) m hm hx2
      · exact id_ne_of_lt inv.idsLt (Nat.le_succ _) m hm hx2
    · intro p hp
      simp only [List.mem_append, List.mem_singleton] at hp
      rcases hp with hp | hp
      · obtain ⟨k, hk, hid⟩ := inv.pendLt p hp
        exact ⟨k, show k < s.chat.uuidCtr + 2 by omega, hid⟩
      · subst hp
        exact ⟨s.chat.uuidCtr + 1,
          show s.chat.uuidCtr + 1 < s.chat.uuidCtr + 2 by omega, rfl⟩
    · show ((s.pending ++ _).map PendingExchange.agentId).Nodup
      rw [List.map_append, List.nodup_append]
      refine ⟨inv.pendNodup, by simp, ?_⟩
      rw [List.disjoint_left]
      intro x hx hx2
      simp only [List.mem_map] at hx
      obtain ⟨p, hp, rfl⟩ := hx
      simp at hx2
      exact gen_ne_of_lt (inv.pendLt p hp) (Nat.le_succ _) hx2
    · intro p hp m hm hid
      simp only [List.mem_append, List.mem_singleton] at hp
      simp only [List.append_assoc, List.mem_append, List.mem_singleton] at hm
      rcases hp with hp | hp
      · rcases hm with hm | hm | hm
        · exact inv.pendStream p hp m hm hid
        · exfalso
          subst hm
          exact gen_ne_of_lt (inv.pendLt p hp) (Nat.le_refl _) hid.symm
        · exfalso
          subst hm
          exact gen_ne_of_lt (inv.pendLt p hp) (Nat.le_succ _) hid.symm
      · subst hp
        rcases hm with hm | hm | hm
        · exact absurd hid
            (id_ne_of_lt inv.idsLt (Nat.le_succ _) m hm)
        · exfalso
          subst hm
          exact hne01 hid
        · subst hm
          rfl
  | sendFinish p₀ outcome elapsed hp₀ =>
    have hidpres : ∀ m : Message,
        ((if m.id = p₀.agentId then
            applyPatch m (finishPatch outcome elapsed)
          else m).id) = m.id := by
      intro m
      split
      · exact applyPatch_id (finishPatch_id outcome elapsed)
      · rfl
    constructor
    · intro m' hm'
      rw [handleSendFinish_messages] at hm'
      rw [handleSendFinish_ctr]
      simp only [List.mem_map] at hm'
      obtain ⟨m, hm, rfl⟩ := hm'
      obtain ⟨k, hk, hmid⟩ := inv.idsLt m hm
      exact ⟨k, hk, by rw [hidpres]; exact hmid⟩
    · rw [handleSendFinish_messages, List.map_map]
      have heq : s.chat.messages.map
          (Message.id ∘ fun m =>
            if m.id = p₀.agentId then
              applyPatch m (finishPatch outcome elapsed)
            else m) =
          s.chat.messages.map Message.id :=
        List.map_congr_left fun m _ => hidpres m
      rw [heq]
      exact inv.idsNodup
    · intro p hp
      rw [handleSendFinish_pending] at hp
      rw [handleSendFinish_ctr]
      exact inv.pendLt p (List.mem_of_mem_erase hp)
    · rw [handleSendFinish_pending]
      exact inv.pendNodup.sublist
        (List.Sublist.map PendingExchange.agentId
          (List.erase_sublist p₀ s.pending))
    · intro p hp m' hm' hid
      rw [handleSendFinish_pending] at hp
      rw [handleSendFinish_messages] at hm'
      have hpnd : s.pending.Nodup :=
        List.Nodup.of_map PendingExchange.agentId inv.pendNodup
      obtain ⟨hpne, hpmem⟩ := (List.Nodup.mem_erase_iff hpnd).mp hp
      have hidne : p.agentId ≠ p₀.agentId := by
        intro he
        exact hpne (List.inj_on_of_nodup_map inv.pendNodup hpmem hp₀ he)
      simp only [List.mem_map] at hm'
      obtain ⟨m, hm, rfl⟩ := hm'
      rw [hidpres] at hid
      have hcase : ¬ m.id = p₀.agentId := by
        rw [hid]
        exact hidne
      rw [if_neg hcase]
      exact inv.pendStream p hpmem m hm hid
  | reset =>
    constructor
    · intro m hm
      simp [resetSession] at hm
    · show (List.map Message.id []).Nodup
      simp
    · intro p hp
      obtain ⟨k, hk, hid⟩ := inv.pendLt p hp
      exact ⟨k, show k < s.chat.uuidCtr + 1 by omega, hid⟩
    · exact inv.pendNodup
    · intro p hp m hm
      simp [resetSession] at hm
  | greet now =>
    by_cases hnil : s.chat.messages = []
    · simp only [greetStep, if_pos hnil]
      constructor
      · intro m hmem
        show ∃ k, k < s.chat.uuidCtr + 1 ∧ m.id = mkGenId k
        simp only [addMessage, hnil] at hmem
        simp at hmem
        subst hmem
        exact ⟨s.chat.uuidCtr, by omega, rfl⟩
      · show ((s.chat.messages ++ _).map Message.id).Nodup
        rw [hnil]
        simp
      · intro p hp
        obtain ⟨k, hk, hid⟩ := inv.pendLt p hp
        exact ⟨k, show k < s.chat.uuidCtr + 1 by omega, hid⟩
      · exact inv.pendNodup
      · intro p hp m hmem hid
        simp only [addMessage, hnil] at hmem
        simp at hmem
        subst hmem
        exact absurd hid.symm (gen_ne_of_lt (inv.pendLt p hp) (Nat.le_refl _))
    · simp only [greetStep, if_neg hnil]
      exact inv
  | updatePrefs p =>
    exact ⟨inv.idsLt, inv.idsNodup, inv.pendLt, inv.pendNodup,
      inv.pendStream⟩

/-- Every reachable state of the faithful system satisfies the
invariant. -/
theorem faithInv_reachable {s : SysState} (h : Reachable s) : FaithInv s := by
  induction h with
  | refl => exact faithInv_init
  | tail _ hbc ih => exact faithInv_step ih hbc

/-! ## Invariant under the strengthened contract -/

/-- Additional invariant available only under the no-overlap contract:
at most one exchange is in flight, nothing streams while none is, only
the in-flight placeholder streams, and a set `streamingMessageId` names
it.  (The counterexample for the original C1 shows these fail under the
`isLoading`-only guard.) -/
structure ContractInv (s : SysState) : Prop where
  faith : FaithInv s
  pendShape : s.pending = [] ∨ ∃ p, s.pending = [p]
  noneStream : s.pending = [] →
    ∀ m ∈ s.chat.messages, m.isStreaming ≠ some true
  streamOnly : ∀ p, s.pending = [p] →
    ∀ m ∈ s.chat.messages, m.isStreaming = some true → m.id = p.agentId
  sid : ∀ i, s.chat.streamingMessageId = some i →
    ∃ p, s.pending = [p] ∧ i = p.agentId ∧
      ∃ m ∈ s.chat.messages, m.id = i ∧ m.isStreaming = some true

theorem contractInv_init : ContractInv initSys := by
  refine ⟨faithInv_init, Or.inl rfl, ?_, ?_, ?_⟩ <;>
    simp [initSys, initState]

theorem contractInv_step {s s' : SysState} (inv : ContractInv s)
    (h : ContractStep s s') : ContractInv s' := by
  have faith' := faithInv_step inv.faith (contractStep_sysStep h)
  cases h with
  | sendStart content nowU nowA hL hnone =>
    rw [handleSendStart_eq] at faith' ⊢
    refine ⟨faith', ?_, ?_, ?_, ?_⟩
    · right
      rw [hnone]
      exact ⟨_, rfl⟩
    · intro habs
      simp [hnone] at habs
    · intro q hq m hm hstream
      rw [hnone] at hq
      simp at hq
      subst hq
      simp only [List.append_assoc, List.mem_append, List.mem_singleton] at hm
      rcases hm with hm | hm | hm
      · exact absurd hstream (inv.noneStream hnone m hm)
      · subst hm
        simp at hstream
      · subst hm
        rfl
    · intro i hi
      simp only [Option.some.injEq] at hi
      subst hi
      refine ⟨{ agentId := mkGenId (s.chat.uuidCtr + 1),
                sessionAtStart := s.chat.sessionId }, ?_, rfl, ?_⟩
      · rw [hnone]
        rfl
      refine ⟨{ id := mkGenId (s.chat.uuidCtr + 1), role := .agent,
                content := "", timestamp := nowA,
                isStreaming := some true }, ?_, rfl, rfl⟩
      simp
  | sendFinish p₀ outcome elapsed hp₀ =>
    rcases inv.pendShape with hsh | ⟨p, hsh⟩
    · rw [hsh] at hp₀
      simp at hp₀
    · have hp0 : p₀ = p := by
        rw [hsh] at hp₀
        simpa using hp₀
      subst hp0
      have hpend : (handleSendFinish s p₀ outcome elapsed).pending = [] := by
        rw [handleSendFinish_pending, hsh, List.erase_cons_head]
      refine ⟨faith', Or.inl hpend, ?_, ?_, ?_⟩
      · intro _ m' hm'
        rw [handleSendFinish_messages] at hm'
        simp only [List.mem_map] at hm'
        obtain ⟨m, hm, rfl⟩ := hm'
        by_cases hcase : m.id = p₀.agentId
        · rw [if_pos hcase,
            applyPatch_isStreaming (finishPatch_isStreaming outcome elapsed)]
          simp
        · rw [if_neg hcase]
          intro hstream
          exact hcase (inv.streamOnly p₀ hsh m hm hstream)
      · intro q hq m hm hstream
        rw [hpend] at hq
        simp at hq
      · intro i hi
        rw [handleSendFinish_streamingId] at hi
        simp at hi
  | reset =>
    refine ⟨faith', inv.pendShape, ?_, ?_, ?_⟩
    · intro _ m hm
      simp [resetSession] at hm
    · intro q hq m hm
      simp [resetSession] at hm
    · intro i hi
      simp [resetSession] at hi
  | greet now =>
    by_cases hnil : s.chat.messages = []
    · simp only [greetStep, if_pos hnil] at faith' ⊢
      refine ⟨faith', inv.pendShape, ?_, ?_, ?_⟩
      · intro _ m hm
        simp only [addMessage, hnil] at hm
        simp at hm
        subst hm
        simp
      · intro q hq m hm hstream
        simp only [addMessage, hnil] at hm
        simp at hm
        subst hm
        simp at hstream
      · intro i hi
        obtain ⟨q, hq, hiq, m, hm, _⟩ := inv.sid i hi
        rw [hnil] at hm
        simp at hm
    · simp only [greetStep, if_neg hnil] at faith' ⊢
      exact ⟨faith', inv.pendShape, inv.noneStream, inv.streamOnly, inv.sid⟩
  | updatePrefs p =>
    exact ⟨faith', inv.pendShape, inv.noneStream, inv.streamOnly, inv.sid⟩

/-- Every state reachable under the strengthened contract satisfies the
contract invariant. -/
theorem contractInv_reachable {s : SysState} (h : ContractReachable s) :
    ContractInv s := by
  induction h with
  | refl => exact contractInv_init
  | tail _ hbc ih => exact contractInv_step ih hbc

/-! ## Claim C5: persistence round trip -/

/-- C5: persisting a snapshot and restoring it yields `messages`,
`sessionId`, and `userPreferences` equal to the pre-persist values, while
the transient `isLoading` and `streamingMessageId` are not part of the
snapshot and are `false`/`none` after restore regardless of their
pre-persist values. -/
theorem persist_roundtrip (st : ChatState) (ctr : Nat) :
    (rehydrate (toPersistedSnapshot st) ctr).messages = st.messages ∧
    (rehydrate (toPersistedSnapshot st) ctr).sessionId = st.sessionId ∧
    (rehydrate (toPersistedSnapshot st) ctr).userPreferences =
      st.userPreferences ∧
    (rehydrate (toPersistedSnapshot st) ctr).isLoading = false ∧
    (rehydrate (toPersistedSnapshot st) ctr).streamingMessageId = none :=
  ⟨rfl, rfl, rfl, rfl, rfl⟩

/-! ## Claim C6: resetSession -/

/-- C6: `resetSession()` empties the messages, clears the flags, and
draws a fresh session id, distinct from the prior one (the hypothesis is
the uuid-freshness assumption: the next generator draw does not collide
with the current session id); two consecutive resets always produce two
distinct session ids. -/
theorem resetSession_spec (st : ChatState)
    (hfresh : st.sessionId ≠ mkGenId st.uuidCtr) :
    (resetSession st).messages = [] ∧
    (resetSession st).sessionId ≠ st.sessionId ∧
    (resetSession st).isLoading = false ∧
    (resetSession st).streamingMessageId = none ∧
    (resetSession (resetSession st)).sessionId ≠ (resetSession st).sessionId := by
  refine ⟨rfl, ?_, rfl, rfl, ?_⟩
  · intro h
    exact hfresh h.symm
  · intro h
    have h2 : mkGenId (st.uuidCtr + 1) = mkGenId st.uuidCtr := h
    have := mkGenId_injective h2
    omega

theorem resetSession_spec_witness :
    (resetSession initState).messages = [] ∧
    (resetSession initState).sessionId ≠ initState.sessionId ∧
    (resetSession initState).isLoading = false ∧
    (resetSession initState).streamingMessageId = none ∧
    (resetSession (resetSession initState)).sessionId ≠
      (resetSession initState).sessionId :=
  resetSession_spec initState (by decide)

/-! ## Claim C7: updateMessage on a missing id -/

/-- C7: when no message has the given id, `updateMessage` leaves the
whole state (in particular `messages`) unchanged: no throw, no new
entry, no modified entry. -/
theorem updateMessage_missing_id_noop (st : ChatState) (id : String)
    (p : MessagePatch) (h : ∀ m ∈ st.messages, m.id ≠ id) :
    updateMessage st id p = st := by
  have hmap : st.messages.map
      (fun m => if m.id = id then applyPatch m p else m) = st.messages := by
    conv_rhs => rw [← List.map_id st.messages]
    exact List.map_congr_left fun m hm => by rw [if_neg (h m hm)]; rfl
  show { st with messages := _ } = st
  rw [hmap]

theorem updateMessage_missing_id_noop_witness :
    updateMessage (greetStep initSys 5).chat "nope" { content := some "hi" } =
      (greetStep initSys 5).chat :=
  updateMessage_missing_id_noop (greetStep initSys 5).chat "nope"
    { content := some "hi" } (by decide)

/-! ## Claim C10: frame property of updateMessage -/

/-- C10: `updateMessage` preserves the length and order of the message
list; positionally, every entry whose id differs from the target is
unchanged, and every entry whose id matches (all of them, if duplicates
exist) becomes the spread-merge of the patch into it. -/
theorem updateMessage_frame (st : ChatState) (id : String)
    (p : MessagePatch) (j : Nat) :
    (updateMessage st id p).messages.length = st.messages.length ∧
    (updateMessage st id p).messages[j]? =
      (st.messages[j]?).map
        fun m => if m.id = id then applyPatch m p else m := by
  constructor
  · simp [updateMessage]
  · simp [updateMessage]

/-! ## Claim C8: empty input is a no-op -/

/-- C8: when the composed text is empty after trimming, the send path
does nothing: the state is untouched (no user message, no placeholder,
no error entry) and no outbound request is started. -/
theorem sendPath_empty_noop (message : String) (disabled : Bool)
    (s : SysState) (nowU nowA : Nat) (h : jsTrim message = "") :
    sendPath message disabled s nowU nowA = (s, false) := by
  simp [sendPath, handleSend, h]

theorem sendPath_empty_noop_witness :
    sendPath "   " false initSys 1 2 = (initSys, false) :=
  sendPath_empty_noop "   " false initSys 1 2 (by decide)


/-! ## Claim C1: at most one streaming message -/

/-- C1 is false as stated: its caller contract only forbids a send while
`isLoading` is true, but the reset button is never disabled and
`resetSession` lowers `isLoading` mid-flight, re-enabling the input
while the first exchange is still awaiting; when that stale exchange's
`finally` block later lowers `isLoading` again, a third send can begin
while the second exchange is still in flight.  The trace below — every
send of which starts with `isLoading = false` — is reachable and ends
with two messages whose `isStreaming` is `true`. -/
theorem at_most_one_streaming_counterexample :
    Reachable
      (handleSendStart
        (handleSendFinish
          (handleSendStart
            { handleSendStart initSys "a" 1 2 with
              chat := resetSession (handleSendStart initSys "a" 1 2).chat }
            "b" 3 4)
          { agentId := mkGenId 2, sessionAtStart := mkGenId 0 }
          (SendOutcome.failure none) 5)
        "c" 6 7) ∧
    streamCount
      (handleSendStart
        (handleSendFinish
          (handleSendStart
            { handleSendStart initSys "a" 1 2 with
              chat := resetSession (handleSendStart initSys "a" 1 2).chat }
            "b" 3 4)
          { agentId := mkGenId 2, sessionAtStart := mkGenId 0 }
          (SendOutcome.failure none) 5)
        "c" 6 7).chat.messages = 2 := by
  constructor
  · exact Relation.ReflTransGen.tail
      (Relation.ReflTransGen.tail
        (Relation.ReflTransGen.tail
          (Relation.ReflTransGen.tail
            (Relation.ReflTransGen.single
              (SysStep.sendStart initSys "a" 1 2 rfl))
            (SysStep.reset _))
          (SysStep.sendStart _ "b" 3 4 rfl))
        (SysStep.sendFinish _
          { agentId := mkGenId 2, sessionAtStart := mkGenId 0 }
          (SendOutcome.failure none) 5 (by decide)))
      (SysStep.sendStart _ "c" 6 7 rfl)
  · decide

/-- C1 (amended): under the strengthened caller contract that no second
`sendMessage` starts while an exchange is still in flight (not merely
while `isLoading` is true — the two differ exactly when `resetSession`
is invoked mid-flight, as the counterexample shows), every reachable
state has at most one message with `isStreaming = true`, and whenever
`streamingMessageId` is set it is the id of such a streaming message. -/
theorem at_most_one_streaming {s : SysState} (h : ContractReachable s) :
    streamCount s.chat.messages ≤ 1 ∧
    ∀ i, s.chat.streamingMessageId = some i →
      ∃ m ∈ s.chat.messages, m.isStreaming = some true ∧ m.id = i := by
  have inv := contractInv_reachable h
  constructor
  · rcases inv.pendShape with hp | ⟨p, hp⟩
    · have hnil : (s.chat.messages.filter
          fun m => m.isStreaming = some true) = [] := by
        rw [List.filter_eq_nil_iff]
        intro m hm
        simpa using inv.noneStream hp m hm
      simp [streamCount, hnil]
    · have hnd : ((s.chat.messages.filter
          fun m => m.isStreaming = some true).map Message.id).Nodup :=
        inv.faith.idsNodup.sublist
          (List.Sublist.map Message.id (List.filter_sublist s.chat.messages))
      apply length_le_one_of_all_eq hnd
      intro m hm
      rw [List.mem_filter] at hm
      have hstream : m.isStreaming = some true := by simpa using hm.2
      exact inv.streamOnly p hp m hm.1 hstream
  · intro i hi
    obtain ⟨p, _, _, m, hm, hid, hstr⟩ := inv.sid i hi
    exact ⟨m, hm, hstr, hid⟩

theorem at_most_one_streaming_witness :
    streamCount initSys.chat.messages ≤ 1 ∧
    ∀ i, initSys.chat.streamingMessageId = some i →
      ∃ m ∈ initSys.chat.messages, m.isStreaming = some true ∧ m.id = i :=
  at_most_one_streaming Relation.ReflTransGen.refl

/-! ## Claim C9: completed and failed messages are never touched again -/

/-- C9: along every step the system takes from a reachable state — with
the program's own `isLoading`-only guard, overlapping exchanges
included — a message that is already terminal (not streaming: completed
or failed) is never modified: any message with its id afterwards is the
identical message.  In particular nothing transitions out of completed
or failed (a stale exchange's patch targets a placeholder id that is
either absent or still streaming). -/
theorem terminal_never_touched {s s' : SysState} (hr : Reachable s)
    (hstep : SysStep s s') :
    ∀ m ∈ s.chat.messages, m.isStreaming ≠ some true →
      ∀ m' ∈ s'.chat.messages, m'.id = m.id → m' = m := by
  have inv := faithInv_reachable hr
  intro m hm hterm m' hm' hid
  cases hstep with
  | sendStart content nowU nowA hL =>
    rw [handleSendStart_eq] at hm'
    simp only [List.append_assoc, List.mem_append, List.mem_singleton] at hm'
    rcases hm' with hm' | hm' | hm'
    · exact eq_of_same_id inv.idsNodup hm hm' hid
    · exfalso
      apply id_ne_of_lt inv.idsLt (Nat.le_refl _) m hm
      rw [← hid, hm']
    · exfalso
      apply id_ne_of_lt inv.idsLt (Nat.le_succ _) m hm
      rw [← hid, hm']
  | sendFinish p₀ outcome elapsed hp₀ =>
    rw [handleSendFinish_messages] at hm'
    simp only [List.mem_map] at hm'
    obtain ⟨m0, hm0, rfl⟩ := hm'
    have hmneq : m.id ≠ p₀.agentId := by
      intro heq
      exact hterm (inv.pendStream p₀ hp₀ m hm heq)
    by_cases hcase : m0.id = p₀.agentId
    · exfalso
      rw [if_pos hcase, applyPatch_id (finishPatch_id outcome elapsed)]
        at hid
      exact hmneq (hid ▸ hcase)
    · rw [if_neg hcase] at hid ⊢
      exact eq_of_same_id inv.idsNodup hm hm0 hid
  | reset =>
    exfalso
    simp [resetSession] at hm'
  | greet now =>
    by_cases hnil : s.chat.messages = []
    · exfalso
      rw [hnil] at hm
      simp at hm
    · simp only [greetStep, if_neg hnil] at hm'
      exact eq_of_same_id inv.idsNodup hm hm' hid
  | updatePrefs p =>
    exact eq_of_same_id inv.idsNodup hm hm' hid

theorem terminal_never_touched_witness :
    ((greetStep initSys 5).chat.messages.length = 1) ∧
    ∀ m' ∈ (greetStep initSys 5).chat.messages,
      m'.id = mkGenId 1 →
        m' = { id := mkGenId 1, role := .agent,
               content := "Hello! I'm the Vantage AI assistant. How can I help you today?",
               timestamp := 5 } := by
  refine ⟨by decide, ?_⟩
  intro m' hm' hid
  exact terminal_never_touched
    (Relation.ReflTransGen.single (SysStep.greet initSys 5))
    (SysStep.updatePrefs (greetStep initSys 5) {})
    { id := mkGenId 1, role := .agent,
      content := "Hello! I'm the Vantage AI assistant. How can I help you today?",
      timestamp := 5 }
    (by decide) (by decide) m' hm' hid

/-! ## Claim C2: successful exchange -/

/-- C2 is false as stated on the `processingTime` clause: the source
computes `response.processing_time || (endTime - startTime)`, so when
the backend reports `processing_time = 0` (falsy in JS) the placeholder
receives the locally measured elapsed time (here 7), not the response's
`processing_time` (0). -/
theorem success_processing_time_counterexample :
    ((handleSendFinish (handleSendStart initSys "Hello" 1 2)
        { agentId := mkGenId 2, sessionAtStart := mkGenId 0 }
        (SendOutcome.success
          { response := "Hi", session_id := "s2", processing_time := 0,
            tools_used := [] }) 7).chat.messages.map
      Message.processingTime).getLast? = some (some 7) ∧ (7 : Nat) ≠ 0 := by
  constructor
  · decide
  · decide

/-- C2 (amended): on a successful exchange the placeholder is patched to
the response text with `isStreaming = false`, `toolsUsed` from the
response, and `processingTime` equal to the response's `processing_time`
when that is nonzero and to the locally measured elapsed time otherwise;
and (when the session id was not changed mid-flight) the session id
afterwards equals the backend's `session_id` — adopted via
`setSessionId` when it differs from the one sent. -/
theorem sendFinish_success_spec {s : SysState} {p : PendingExchange}
    (resp : ChatResponse) (elapsed : Nat)
    (_hp : p ∈ s.pending) (hsid : s.chat.sessionId = p.sessionAtStart) :
    (handleSendFinish s p (.success resp) elapsed).chat.sessionId =
      resp.session_id ∧
    ∀ m' ∈ (handleSendFinish s p (.success resp) elapsed).chat.messages,
      m'.id = p.agentId →
        m'.content = resp.response ∧
        m'.isStreaming = some false ∧
        m'.toolsUsed = some resp.tools_used ∧
        m'.processingTime =
          some (if resp.processing_time = 0 then elapsed
                else resp.processing_time) := by
  constructor
  · simp only [handleSendFinish]
    by_cases hs : resp.session_id = p.sessionAtStart
    · rw [if_neg (by simp [hs])]
      show s.chat.sessionId = resp.session_id
      rw [hsid, hs]
    · rw [if_pos hs]
      rfl
  · intro m' hm' hid
    rw [handleSendFinish_messages] at hm'
    simp only [List.mem_map] at hm'
    obtain ⟨m0, hm0, rfl⟩ := hm'
    by_cases hcase : m0.id = p.agentId
    · rw [if_pos hcase]
      exact ⟨rfl, rfl, rfl, rfl⟩
    · rw [if_neg hcase] at hid
      exact absurd hid hcase

theorem sendFinish_success_spec_witness :
    (handleSendFinish (handleSendStart initSys "Hello" 1 2)
        { agentId := mkGenId 2, sessionAtStart := mkGenId 0 }
        (.success { response := "Hi there", session_id := "s2",
                    processing_time := 120, tools_used := [] })
        7).chat.sessionId = "s2" ∧
    ∀ m' ∈ (handleSendFinish (handleSendStart initSys "Hello" 1 2)
        { agentId := mkGenId 2, sessionAtStart := mkGenId 0 }
        (.success { response := "Hi there", session_id := "s2",
                    processing_time := 120, tools_used := [] })
        7).chat.messages,
      m'.id = mkGenId 2 →
        m'.content = "Hi there" ∧
        m'.isStreaming = some false ∧
        m'.toolsUsed = some [] ∧
        m'.processingTime = some (if (120 : Nat) = 0 then 7 else 120) :=
  sendFinish_success_spec
    (p := { agentId := mkGenId 2, sessionAtStart := mkGenId 0 })
    { response := "Hi there", session_id := "s2",
      processing_time := 120, tools_used := [] }
    7 (by decide) (by decide)

/-! ## Claim C3: failed exchange -/

/-- C3 is false as stated on the non-emptiness of the error text: the
catch block stores `error.message` verbatim, so a thrown `Error` whose
message is the empty string leaves the placeholder with `error = ''`,
an empty string. -/
theorem failure_empty_error_counterexample :
    ((handleSendFinish (handleSendStart initSys "Hello" 1 2)
        { agentId := mkGenId 2, sessionAtStart := mkGenId 0 }
        (SendOutcome.failure (some "")) 7).chat.messages.map
      Message.error).getLast? = some (some "") := by
  decide

/-- C3 (amended): on a failed exchange the placeholder ends with
`isStreaming = false` and `error` set to the thrown error's message (or
`'An error occurred'` for a non-`Error` throw) — non-empty whenever the
thrown message is non-empty; every message's `content` (in particular
the placeholder's, which stays empty) is unchanged; and afterwards
`streamingMessageId` is cleared and `isLoading` is false. -/
theorem sendFinish_failure_spec {s : SysState} {p : PendingExchange}
    (thrown : Option String) (elapsed : Nat) (_hp : p ∈ s.pending) :
    (handleSendFinish s p (.failure thrown) elapsed).chat.streamingMessageId =
      none ∧
    (handleSendFinish s p (.failure thrown) elapsed).chat.isLoading = false ∧
    (handleSendFinish s p (.failure thrown) elapsed).chat.messages.length =
      s.chat.messages.length ∧
    (∀ j : Nat,
      ((handleSendFinish s p (.failure thrown) elapsed).chat.messages[j]?).map
          Message.content =
        (s.chat.messages[j]?).map Message.content) ∧
    (∀ m' ∈ (handleSendFinish s p (.failure thrown) elapsed).chat.messages,
      m'.id = p.agentId →
        m'.isStreaming = some false ∧
        m'.error = some (thrown.getD "An error occurred")) ∧
    (thrown ≠ some "" → thrown.getD "An error occurred" ≠ "") := by
  refine ⟨rfl, rfl, ?_, ?_, ?_, ?_⟩
  · rw [handleSendFinish_messages]
    simp
  · intro j
    rw [handleSendFinish_messages, List.getElem?_map]
    cases hj : s.chat.messages[j]? with
    | none => rfl
    | some m =>
      have hcontent :
          (if m.id = p.agentId then
            applyPatch m (finishPatch (.failure thrown) elapsed)
          else m).content = m.content := by
        split <;> rfl
      simp [hcontent]
  · intro m' hm' hid
    rw [handleSendFinish_messages] at hm'
    simp only [List.mem_map] at hm'
    obtain ⟨m0, hm0, rfl⟩ := hm'
    by_cases hcase : m0.id = p.agentId
    · rw [if_pos hcase]
      exact ⟨rfl, rfl⟩
    · rw [if_neg hcase] at hid
      exact absurd hid hcase
  · intro hne
    cases thrown with
    | none => decide
    | some t =>
      intro h
      apply hne
      rw [show t = "" from h]

theorem sendFinish_failure_spec_witness :
    (handleSendFinish (handleSendStart initSys "Hello" 1 2)
        { agentId := mkGenId 2, sessionAtStart := mkGenId 0 }
        (.failure (some "boom")) 7).chat.streamingMessageId = none ∧
    (handleSendFinish (handleSendStart initSys "Hello" 1 2)
        { agentId := mkGenId 2, sessionAtStart := mkGenId 0 }
        (.failure (some "boom")) 7).chat.isLoading = false ∧
    (handleSendFinish (handleSendStart initSys "Hello" 1 2)
        { agentId := mkGenId 2, sessionAtStart := mkGenId 0 }
        (.failure (some "boom")) 7).chat.messages.length =
      (handleSendStart initSys "Hello" 1 2).chat.messages.length ∧
    (∀ j : Nat,
      ((handleSendFinish (handleSendStart initSys "Hello" 1 2)
          { agentId := mkGenId 2, sessionAtStart := mkGenId 0 }
          (.failure (some "boom")) 7).chat.messages[j]?).map
          Message.content =
        ((handleSendStart initSys "Hello" 1 2).chat.messages[j]?).map
          Message.content) ∧
    (∀ m' ∈ (handleSendFinish (handleSendStart initSys "Hello" 1 2)
        { agentId := mkGenId 2, sessionAtStart := mkGenId 0 }
        (.failure (some "boom")) 7).chat.messages,
      m'.id = mkGenId 2 →
        m'.isStreaming = some false ∧
        m'.error = some ((some "boom").getD "An error occurred")) ∧
    ((some "boom" : Option String) ≠ some "" →
      (some "boom" : Option String).getD "An error occurred" ≠ "") :=
  sendFinish_failure_spec
    (p := { agentId := mkGenId 2, sessionAtStart := mkGenId 0 })
    (some "boom") 7 (by decide)

/-! ## Claim C4: id uniqueness and timestamp monotonicity of addMessage -/

/-- One `addMessage` invocation: the `Date.now()` reading and the
argument object. -/
structure AddCall where
  now : Nat
  msg : NewMessage
deriving DecidableEq, Repr

/-- Run a sequence of `addMessage` calls against a state. -/
def runAdds (st : ChatState) : List AddCall → ChatState
  | [] => st
  | c :: cs => runAdds (addMessage st c.now c.msg).1 cs

/-- The ids the callers supplied themselves (skipping generated ones). -/
def suppliedIds (calls : List AddCall) : List String :=
  calls.filterMap fun c => c.msg.id

theorem addMessage_messages (st : ChatState) (now : Nat) (m : NewMessage) :
    (addMessage st now m).1.messages =
      st.messages ++ [(addMessage st now m).2] := rfl

theorem addMessage_snd_id (st : ChatState) (now : Nat) (m : NewMessage) :
    (addMessage st now m).2.id = m.id.getD (mkGenId st.uuidCtr) := rfl

theorem addMessage_snd_timestamp (st : ChatState) (now : Nat)
    (m : NewMessage) : (addMessage st now m).2.timestamp = now := rfl

theorem addMessage_ctr (st : ChatState) (now : Nat) (m : NewMessage) :
    (addMessage st now m).1.uuidCtr =
      if m.id.isSome then st.uuidCtr else st.uuidCtr + 1 := rfl

theorem runAdds_cons (st : ChatState) (c : AddCall) (cs : List AddCall) :
    runAdds st (c :: cs) = runAdds (addMessage st c.now c.msg).1 cs := rfl

/-- C4 is false as stated: `addMessage` uses a caller-supplied id as-is
(no uniqueness check), so two calls both supplying id `"x"` produce two
messages with equal ids in the list. -/
theorem addMessage_unique_counterexample :
    ¬ (((runAdds initState
        [{ now := 1, msg := { id := some "x", role := .user, content := "a" } },
         { now := 2, msg := { id := some "x", role := .user, content := "b" } }]).messages.map
        Message.id).Nodup) := by
  decide

/-- Ids of messages in a state: either drawn from the generator below
the counter, or not of generated form at all. -/
def IdsOK (st : ChatState) : Prop :=
  (st.messages.map Message.id).Nodup ∧
  ∀ m ∈ st.messages,
    (∃ k, k < st.uuidCtr ∧ m.id = mkGenId k) ∨ GenFree m.id

theorem gen_notin_of_idsOK {st : ChatState}
    (h : ∀ m ∈ st.messages,
      (∃ k, k < st.uuidCtr ∧ m.id = mkGenId k) ∨ GenFree m.id)
    {j : Nat} (hj : st.uuidCtr ≤ j) :
    mkGenId j ∉ st.messages.map Message.id := by
  intro hmem
  simp only [List.mem_map] at hmem
  obtain ⟨m, hm, hid⟩ := hmem
  rcases h m hm with ⟨k, hk, hmk⟩ | hfree
  · have : k = j := mkGenId_injective (hmk ▸ hid)
    omega
  · exact hfree j hid

theorem runAdds_idsOK (calls : List AddCall) :
    ∀ st : ChatState, IdsOK st →
    (suppliedIds calls).Nodup →
    (∀ i ∈ suppliedIds calls, GenFree i) →
    (∀ i ∈ suppliedIds calls, i ∉ st.messages.map Message.id) →
    IdsOK (runAdds st calls) := by
  induction calls with
  | nil =>
    intro st hok _ _ _
    exact hok
  | cons c cs ih =>
    intro st hok hnd hgf hnotin
    rw [runAdds_cons]
    have hmsgs := addMessage_messages st c.now c.msg
    have hctr := addMessage_ctr st c.now c.msg
    rcases hmid : c.msg.id with _ | s
    · -- generated id
      have hnewid : (addMessage st c.now c.msg).2.id = mkGenId st.uuidCtr := by
        rw [addMessage_snd_id, hmid]
        rfl
      have hctr1 : (addMessage st c.now c.msg).1.uuidCtr =
          st.uuidCtr + 1 := by
        rw [hctr, hmid]
        rfl
      have hsupp : suppliedIds (c :: cs) = suppliedIds cs := by
        simp [suppliedIds, hmid]
      rw [hsupp] at hnd hgf hnotin
      apply ih
      · constructor
        · rw [hmsgs, List.map_append, List.nodup_append]
          refine ⟨hok.1, by simp, ?_⟩
          rw [List.disjoint_left]
          intro x hx hx2
          simp only [List.map_cons, List.map_nil, List.mem_singleton,
            hnewid] at hx2
          subst hx2
          exact gen_notin_of_idsOK hok.2 (Nat.le_refl _) hx
        · intro m hm
          rw [hmsgs] at hm
          rw [hctr1]
          rcases List.mem_append.mp hm with hm | hm
          · rcases hok.2 m hm with ⟨k, hk, hmk⟩ | hfree
            · exact Or.inl ⟨k, by omega, hmk⟩
            · exact Or.inr hfree
          · simp only [List.mem_singleton] at hm
            subst hm
            exact Or.inl ⟨st.uuidCtr, by omega, hnewid⟩
      · exact hnd
      · exact hgf
      · intro i hi
        rw [hmsgs, List.map_append]
        intro hmem
        rcases List.mem_append.mp hmem with hmem | hmem
        · exact hnotin i hi hmem
        · simp only [List.map_cons, List.map_nil, List.mem_singleton,
            hnewid] at hmem
          exact hgf i hi st.uuidCtr hmem
    · -- caller-supplied id s
      have hnewid : (addMessage st c.now c.msg).2.id = s := by
        rw [addMessage_snd_id, hmid]
        rfl
      have hctr1 : (addMessage st c.now c.msg).1.uuidCtr = st.uuidCtr := by
        rw [hctr, hmid]
        rfl
      have hsupp : suppliedIds (c :: cs) = s :: suppliedIds cs := by
        simp [suppliedIds, hmid]
      rw [hsupp] at hnd hgf hnotin
      rw [List.nodup_cons] at hnd
      apply ih
      · constructor
        · rw [hmsgs, List.map_append, List.nodup_append]
          refine ⟨hok.1, by simp, ?_⟩
          rw [List.disjoint_left]
          intro x hx hx2
          simp only [List.map_cons, List.map_nil, List.mem_singleton,
            hnewid] at hx2
          subst hx2
          exact hnotin _ (List.mem_cons_self _ _) hx
        · intro m hm
          rw [hmsgs] at hm
          rw [hctr1]
          rcases List.mem_append.mp hm with hm | hm
          · exact hok.2 m hm
          · simp only [List.mem_singleton] at hm
            subst hm
            exact Or.inr (hnewid ▸ hgf s (by simp))
      · exact hnd.2
      · intro i hi
        exact hgf i (by simp [hi])
      · intro i hi
        rw [hmsgs, List.map_append]
        intro hmem
        rcases List.mem_append.mp hmem with hmem | hmem
        · exact hnotin i (by simp [hi]) hmem
        · simp only [List.map_cons, List.map_nil, List.mem_singleton,
            hnewid] at hmem
          subst hmem
          exact hnd.1 hi

theorem runAdds_timestamps (calls : List AddCall) :
    ∀ st : ChatState,
    List.Chain' (· ≤ ·) (st.messages.map Message.timestamp) →
    List.Chain' (· ≤ ·) (calls.map AddCall.now) →
    (∀ t ∈ st.messages.map Message.timestamp,
      ∀ n ∈ (calls.map AddCall.now).head?, t ≤ n) →
    List.Chain' (· ≤ ·)
      ((runAdds st calls).messages.map Message.timestamp) := by
  induction calls with
  | nil =>
    intro st h _ _
    exact h
  | cons c cs ih =>
    intro st hst hcalls hle
    rw [runAdds_cons]
    have hmsgs := addMessage_messages st c.now c.msg
    have hts := addMessage_snd_timestamp st c.now c.msg
    apply ih
    · rw [hmsgs, List.map_append, List.chain'_append]
      refine ⟨hst, by simp, ?_⟩
      intro a ha b hb
      simp only [List.map_cons, List.map_nil, List.head?_cons,
        Option.mem_def, Option.some.injEq, hts] at hb
      subst hb
      obtain ⟨hne, heq⟩ := List.mem_getLast?_eq_getLast ha
      have hmem : a ∈ st.messages.map Message.timestamp :=
        heq ▸ List.getLast_mem hne
      exact hle a hmem c.now rfl
    · exact (List.chain'_cons'.mp hcalls).2
    · intro t ht n hn
      rw [hmsgs, List.map_append] at ht
      rcases List.mem_append.mp ht with ht | ht
      · have h1 : t ≤ c.now := hle t ht c.now rfl
        have h2 : c.now ≤ n := (List.chain'_cons'.mp hcalls).1 n hn
        omega
      · simp only [List.map_cons, List.map_nil, List.mem_singleton,
          hts] at ht
        subst ht
        exact (List.chain'_cons'.mp hcalls).1 n hn

/-- C4 (amended): along any sequence of `addMessage` calls from the
initial state, message ids are unique provided the caller-supplied ids
are pairwise distinct and never collide with generator output (the code
itself performs no uniqueness check on supplied ids — see the
counterexample — while generated ids are fresh by construction), and
timestamps are non-decreasing in insertion order given that the clock
readings are non-decreasing. -/
theorem addMessage_unique_and_monotone (calls : List AddCall)
    (hnd : (suppliedIds calls).Nodup)
    (hgf : ∀ i ∈ suppliedIds calls, GenFree i)
    (hmono : List.Chain' (· ≤ ·) (calls.map AddCall.now)) :
    (((runAdds initState calls).messages.map Message.id).Nodup) ∧
    List.Chain' (· ≤ ·)
      ((runAdds initState calls).messages.map Message.timestamp) := by
  constructor
  · exact (runAdds_idsOK calls initState
      ⟨by simp [initState], by simp [initState]⟩ hnd hgf
      (by simp [initState])).1
  · exact runAdds_timestamps calls initState (by simp [initState]) hmono
      (by simp [initState])

theorem addMessage_unique_and_monotone_witness :
    (((runAdds initState
        [{ now := 1, msg := { role := .user, content := "Hi" } },
         { now := 2, msg := { id := some "x", role := .agent, content := "" } },
         { now := 2, msg := { role := .agent, content := "ok" } }]).messages.map
        Message.id).Nodup) ∧
    List.Chain' (· ≤ ·)
      (((runAdds initState
        [{ now := 1, msg := { role := .user, content := "Hi" } },
         { now := 2, msg := { id := some "x", role := .agent, content := "" } },
         { now := 2, msg := { role := .agent, content := "ok" } }]).messages.map
        Message.timestamp)) :=
  addMessage_unique_and_monotone
    [{ now := 1, msg := { role := .user, content := "Hi" } },
     { now := 2, msg := { id := some "x", role := .agent, content := "" } },
     { now := 2, msg := { role := .agent, content := "ok" } }]
    (by decide)
    (by
      intro i hi
      have hix : i = "x" := by
        simpa [suppliedIds] using hi
      subst hix
      exact genFree_intro (Or.inr (by decide)))
    (by norm_num [List.chain'_cons])
